import Mathlib

/-!
Verification of the liquidity-range preset and risk-scoring logic of the
QuickSwap interface (the RangePresetEngine of the spec), embedded from
`src/pages/PoolsPage/v3/SupplyLiquidityV3/components/PresetRanges/index.tsx`
and the `AddLiquidityButton` component.

JavaScript numbers are idealized as exact rationals extended with the IEEE
special values NaN, +Infinity and -Infinity (`JsNum`): arithmetic on finite
values is exact rational arithmetic, while the propagation of the special
values follows the JavaScript (IEEE 754) rules.  Input props that arrive as
strings are modelled by their numeric value (`Option` of a rational, `none`
standing for an undefined or empty string, which is exactly what the
truthiness guards in the source reject).
-/

namespace QuickSwap

/-- Idealized JavaScript number: an exact rational, or one of the IEEE
special values NaN, +Infinity, -Infinity. -/
inductive JsNum where
  | nan : JsNum
  | posInf : JsNum
  | negInf : JsNum
  | num : ℚ → JsNum
deriving DecidableEq

namespace JsNum

/-- JavaScript unary minus. -/
def neg : JsNum → JsNum
  | nan => nan
  | posInf => negInf
  | negInf => posInf
  | num q => num (-q)

/-- JavaScript addition: NaN absorbs, opposite infinities give NaN. -/
def add : JsNum → JsNum → JsNum
  | nan, _ => nan
  | _, nan => nan
  | posInf, negInf => nan
  | negInf, posInf => nan
  | posInf, _ => posInf
  | _, posInf => posInf
  | negInf, _ => negInf
  | _, negInf => negInf
  | num a, num b => num (a + b)

/-- JavaScript subtraction, as addition of the negation. -/
def sub (a b : JsNum) : JsNum := a.add b.neg

/-- JavaScript multiplication: NaN absorbs, infinity times zero is NaN,
otherwise infinities follow the sign rules. -/
def mul : JsNum → JsNum → JsNum
  | nan, _ => nan
  | _, nan => nan
  | posInf, posInf => posInf
  | posInf, negInf => negInf
  | negInf, posInf => negInf
  | negInf, negInf => posInf
  | posInf, num q => if 0 < q then posInf else if q < 0 then negInf else nan
  | num q, posInf => if 0 < q then posInf else if q < 0 then negInf else nan
  | negInf, num q => if 0 < q then negInf else if q < 0 then posInf else nan
  | num q, negInf => if 0 < q then negInf else if q < 0 then posInf else nan
  | num a, num b => num (a * b)

/-- JavaScript division: NaN absorbs, infinity over infinity is NaN, a
nonzero finite value over zero is a signed infinity (the literal zero is
+0), zero over zero is NaN, a finite value over infinity is zero. -/
def div : JsNum → JsNum → JsNum
  | nan, _ => nan
  | _, nan => nan
  | posInf, posInf => nan
  | posInf, negInf => nan
  | negInf, posInf => nan
  | negInf, negInf => nan
  | posInf, num q => if 0 ≤ q then posInf else negInf
  | negInf, num q => if 0 ≤ q then negInf else posInf
  | num _, posInf => num 0
  | num _, negInf => num 0
  | num a, num b =>
    if b = 0 then (if 0 < a then posInf else if a < 0 then negInf else nan)
    else num (a / b)

/-- JavaScript strict comparison `<`: any comparison with NaN is false. -/
def lt : JsNum → JsNum → Bool
  | nan, _ => false
  | _, nan => false
  | negInf, negInf => false
  | negInf, _ => true
  | _, negInf => false
  | posInf, _ => false
  | num _, posInf => true
  | num a, num b => decide (a < b)

/-- JavaScript `Math.abs`. -/
def abs : JsNum → JsNum
  | nan => nan
  | posInf => posInf
  | negInf => posInf
  | num q => num |q|

/-- Extract the rational value of a finite JavaScript number (junk value 0
on the special values); used only to state order facts about outputs that
are proved finite. -/
def toRat : JsNum → ℚ
  | num q => q
  | _ => 0

end JsNum

/-- `upperPercent = 100 - (+price / +priceUpper) * 100`, from the `risk`
memo of `PresetRanges` (line 110). -/
def upperPercent (price priceUpper : ℚ) : JsNum :=
  (JsNum.num 100).sub (((JsNum.num price).div (JsNum.num priceUpper)).mul (JsNum.num 100))

/-- `lowerPercent = Math.abs(100 - (+price / +priceLower) * 100)`, from the
`risk` memo of `PresetRanges` (line 111). -/
def lowerPercent (price priceLower : ℚ) : JsNum :=
  ((JsNum.num 100).sub (((JsNum.num price).div (JsNum.num priceLower)).mul (JsNum.num 100))).abs

/-- `rangePercent`, from the `risk` memo of `PresetRanges` (lines 113-116):
the difference of the two percents when `+priceLower > +price && +priceUpper > 0`,
and their sum otherwise.  The comparisons are on the (finite, rational)
numeric values of the input strings. -/
def rangePercent (priceLower priceUpper price : ℚ) : JsNum :=
  if price < priceLower ∧ 0 < priceUpper then
    (upperPercent price priceUpper).sub (lowerPercent price priceLower)
  else
    (upperPercent price priceUpper).add (lowerPercent price priceLower)

/-- The band mapping of the `risk` memo of `PresetRanges` (lines 118-130),
an if-chain on `rangePercent` with JavaScript comparison semantics. -/
def riskBand (r : JsNum) : JsNum :=
  if r.lt (JsNum.num (15/2)) then JsNum.num 5
  else if r.lt (JsNum.num 15) then (((JsNum.num 15).sub r).div (JsNum.num (15/2))).add (JsNum.num 4)
  else if r.lt (JsNum.num 30) then (((JsNum.num 30).sub r).div (JsNum.num 15)).add (JsNum.num 3)
  else if r.lt (JsNum.num 60) then (((JsNum.num 60).sub r).div (JsNum.num 30)).add (JsNum.num 2)
  else if r.lt (JsNum.num 120) then (((JsNum.num 120).sub r).div (JsNum.num 60)).add (JsNum.num 1)
  else JsNum.num 1

/-- The `risk` memo of `PresetRanges` (lines 107-131): `undefined` (`none`)
when any of the three string props is absent or empty, otherwise the band
value of the range percent. -/
def riskScore (priceLower priceUpper price : Option ℚ) : Option JsNum :=
  match priceUpper, priceLower, price with
  | some u, some l, some p => some (riskBand (rangePercent l u p))
  | _, _, _ => none

/-- The `_risk` memo of `PresetRanges` (lines 133-150): `undefined` when the
score is absent, otherwise five fill percentages built from the decimal
representation of the score.  The `toString`/`split`/`parseFloat` machinery
is idealized over exact nonnegative rationals: `+split[0]` is the integer
part `⌊q⌋`, and `parseFloat('0.' + split[1]) * 100` is the fractional part
times 100 (when the score is an integer, `split[1]` is `undefined` and
`parseFloat('0.undefined')` parses the prefix `0.`, giving 0, which again
equals the fractional part). -/
def fiveSegmentFill (risk : Option ℚ) : Option (List ℚ) :=
  match risk with
  | none => none
  | some q =>
    some ((List.range 5).map fun (i : ℕ) =>
      if (i : ℤ) < ⌊q⌋ then 100
      else if (i : ℤ) = ⌊q⌋ then (q - ⌊q⌋) * 100
      else 0)

/-- The preset tags of `state/mint/v3/reducer` used by `PresetRanges`. -/
inductive Presets where
  | FULL
  | SAFE
  | NORMAL
  | RISK
  | STABLE
deriving DecidableEq

/-- The qualitative tier enum of `PresetRanges` (lines 33-38). -/
inductive PresetProfits where
  | VERY_LOW
  | LOW
  | MEDIUM
  | HIGH
deriving DecidableEq

/-- One entry of the `ranges` memo of `PresetRanges`: tag, bounds (the
`FULL` upper bound is `Infinity`, hence `JsNum`), risk tier and profit
tier.  The i18n display title is omitted. -/
structure PresetRange where
  type : Presets
  min : JsNum
  max : JsNum
  risk : PresetProfits
  profit : PresetProfits
deriving DecidableEq

/-- The `ranges` memo of `PresetRanges` (lines 58-105): one stable preset
for a stablecoin pair, otherwise the four presets Full, Safe, Normal, Risk
in that order. -/
def ranges (isStablecoinPair : Bool) : List PresetRange :=
  if isStablecoinPair then
    [⟨Presets.STABLE, JsNum.num 0.984, JsNum.num 1.016,
      PresetProfits.VERY_LOW, PresetProfits.HIGH⟩]
  else
    [⟨Presets.FULL, JsNum.num 0, JsNum.posInf,
      PresetProfits.VERY_LOW, PresetProfits.VERY_LOW⟩,
     ⟨Presets.SAFE, JsNum.num 0.8, JsNum.num 1.4,
      PresetProfits.LOW, PresetProfits.LOW⟩,
     ⟨Presets.NORMAL, JsNum.num 0.9, JsNum.num 1.2,
      PresetProfits.MEDIUM, PresetProfits.MEDIUM⟩,
     ⟨Presets.RISK, JsNum.num 0.95, JsNum.num 1.1,
      PresetProfits.HIGH, PresetProfits.HIGH⟩]

/-- The `onClick` handler of a preset button in `PresetRanges` (lines
185-192), as the ordered sequence of arguments passed to
`handlePresetRangeSelection`: first the clicked range unconditionally, then
`null` when the clicked type equals the active preset (the JavaScript `==`
between `null` and an enum number is false, so the equality here is on
`Option Presets`), otherwise the range again. -/
def presetClickCalls (activePreset : Option Presets) (range : PresetRange) :
    List (Option PresetRange) :=
  [some range] ++ (if activePreset = some range.type then [none] else [some range])

/-- Modelled from the spec: the repository's `hooks/v3/useInverter` is not
under `src/` (only its call site in `AddLiquidityButton`, lines 317-324,
is).  Per the spec, when inversion applies it swaps and reciprocates the
bounds: new lower = `1 / oldUpper`, new upper = `1 / oldLower`. -/
def invertBounds (priceLower priceUpper : ℚ) : ℚ × ℚ :=
  (1 / priceUpper, 1 / priceLower)

/-- The band computation of `riskBand` specialized to finite range percents,
where the JavaScript operations reduce to exact rational arithmetic. -/
def bandQ (r : ℚ) : ℚ :=
  if r < 15/2 then 5
  else if r < 15 then (15 - r) / (15/2) + 4
  else if r < 30 then (30 - r) / 15 + 3
  else if r < 60 then (60 - r) / 30 + 2
  else if r < 120 then (120 - r) / 60 + 1
  else 1

lemma num_add_num (a b : ℚ) : (JsNum.num a).add (JsNum.num b) = JsNum.num (a + b) := rfl

lemma num_sub_num (a b : ℚ) : (JsNum.num a).sub (JsNum.num b) = JsNum.num (a - b) := by
  simp [JsNum.sub, JsNum.neg, JsNum.add, sub_eq_add_neg]

lemma num_div_num (a b : ℚ) (hb : b ≠ 0) :
    (JsNum.num a).div (JsNum.num b) = JsNum.num (a / b) := by
  simp [JsNum.div, hb]

lemma num_mul_num (a b : ℚ) : (JsNum.num a).mul (JsNum.num b) = JsNum.num (a * b) := rfl

lemma num_abs (a : ℚ) : (JsNum.num a).abs = JsNum.num |a| := rfl

lemma num_lt_num (a b : ℚ) : (JsNum.num a).lt (JsNum.num b) = decide (a < b) := rfl

lemma riskBand_num (r : ℚ) : riskBand (JsNum.num r) = JsNum.num (bandQ r) := by
  simp only [riskBand, bandQ, num_lt_num, num_sub_num, num_add_num, decide_eq_true_eq,
    num_div_num _ (15/2) (by norm_num), num_div_num _ 15 (by norm_num),
    num_div_num _ 30 (by norm_num), num_div_num _ 60 (by norm_num)]
  split_ifs <;> rfl

lemma upperPercent_num (p u : ℚ) (hu : u ≠ 0) :
    upperPercent p u = JsNum.num (100 - p / u * 100) := by
  rw [upperPercent, num_div_num _ _ hu, num_mul_num, num_sub_num]

lemma lowerPercent_num (p l : ℚ) (hl : l ≠ 0) :
    lowerPercent p l = JsNum.num |100 - p / l * 100| := by
  rw [lowerPercent, num_div_num _ _ hl, num_mul_num, num_sub_num, num_abs]

lemma rangePercent_num (l u p : ℚ) (hl : l ≠ 0) (hu : u ≠ 0) :
    rangePercent l u p =
      JsNum.num (if p < l ∧ 0 < u then (100 - p / u * 100) - |100 - p / l * 100|
        else (100 - p / u * 100) + |100 - p / l * 100|) := by
  rw [rangePercent, upperPercent_num p u hu, lowerPercent_num p l hl]
  split_ifs <;> simp [num_sub_num, num_add_num]

lemma bandQ_bounds (r : ℚ) : 1 ≤ bandQ r ∧ bandQ r ≤ 5 := by
  unfold bandQ
  split_ifs <;> constructor <;> linarith

lemma bandQ_antitone {r1 r2 : ℚ} (h : r1 ≤ r2) : bandQ r2 ≤ bandQ r1 := by
  unfold bandQ
  split_ifs <;> linarith

lemma riskBand_mem (r : JsNum) : ∃ q : ℚ, riskBand r = JsNum.num q ∧ 1 ≤ q ∧ q ≤ 5 := by
  cases r with
  | nan => exact ⟨1, rfl, by norm_num, by norm_num⟩
  | posInf => exact ⟨1, rfl, by norm_num, by norm_num⟩
  | negInf => exact ⟨5, rfl, by norm_num, by norm_num⟩
  | num q => exact ⟨bandQ q, riskBand_num q, (bandQ_bounds q).1, (bandQ_bounds q).2⟩

/-- Claim C1: for every defined input triple, the risk memo maps the range
percent through exactly the fixed bands of the spec, and on the example
priceLower = 0.9, priceUpper = 1.2, price = 1 the range percent is 250/9
(in the band [15, 30)) and the score is 3 + 4/27. -/
theorem claim_C1 :
    (∀ l u p : ℚ, riskScore (some l) (some u) (some p) = some (riskBand (rangePercent l u p)))
    ∧ (∀ r : ℚ,
        (r < 15/2 → riskBand (JsNum.num r) = JsNum.num 5)
        ∧ (15/2 ≤ r → r < 15 → riskBand (JsNum.num r) = JsNum.num ((15 - r) / (15/2) + 4))
        ∧ (15 ≤ r → r < 30 → riskBand (JsNum.num r) = JsNum.num ((30 - r) / 15 + 3))
        ∧ (30 ≤ r → r < 60 → riskBand (JsNum.num r) = JsNum.num ((60 - r) / 30 + 2))
        ∧ (60 ≤ r → r < 120 → riskBand (JsNum.num r) = JsNum.num ((120 - r) / 60 + 1))
        ∧ (120 ≤ r → riskBand (JsNum.num r) = JsNum.num 1))
    ∧ rangePercent (9/10) (12/10) 1 = JsNum.num (250/9)
    ∧ (15 ≤ (250/9 : ℚ) ∧ (250/9 : ℚ) < 30)
    ∧ riskScore (some (9/10)) (some (12/10)) (some 1) = some (JsNum.num (3 + 4/27)) := by
  refine ⟨fun l u p => rfl, fun r => ?_, ?_, by norm_num, ?_⟩
  · rw [riskBand_num]
    unfold bandQ
    refine ⟨fun h1 => by rw [if_pos h1], fun h1 h2 => ?_, fun h1 h2 => ?_,
      fun h1 h2 => ?_, fun h1 h2 => ?_, fun h1 => ?_⟩
    · rw [if_neg (by linarith), if_pos h2]
    · rw [if_neg (by linarith), if_neg (by linarith), if_pos h2]
    · rw [if_neg (by linarith), if_neg (by linarith), if_neg (by linarith), if_pos h2]
    · rw [if_neg (by linarith), if_neg (by linarith), if_neg (by linarith),
        if_neg (by linarith), if_pos h2]
    · rw [if_neg (by linarith), if_neg (by linarith), if_neg (by linarith),
        if_neg (by linarith), if_neg (by linarith)]
  · rw [rangePercent_num _ _ _ (by norm_num) (by norm_num)]
    norm_num [abs_of_nonneg, abs_of_nonpos]
  · show some (riskBand (rangePercent (9/10) (12/10) 1)) = _
    rw [rangePercent_num _ _ _ (by norm_num) (by norm_num)]
    norm_num [riskBand_num, bandQ, abs_of_nonneg, abs_of_nonpos]

/-- Witness for claim C1: the range percent 250/9 of the example indeed
falls in the band [15, 30) and gets that band value. -/
theorem claim_C1_witness :
    riskBand (JsNum.num (250/9)) = JsNum.num ((30 - 250/9) / 15 + 3) :=
  (claim_C1.2.1 (250/9)).2.2.1 (by norm_num) (by norm_num)

/-- Counterexample to claim C2: at priceLower = 2, priceUpper = -1,
price = 1 the lower bound exceeds the current price, yet the code adds the
two percents (range percent 250) rather than subtracting them (150),
because the source condition also requires priceUpper > 0. -/
theorem claim_C2_counterexample :
    (1 : ℚ) < 2
    ∧ rangePercent 2 (-1) 1 = JsNum.num 250
    ∧ (upperPercent 1 (-1)).sub (lowerPercent 1 2) = JsNum.num 150
    ∧ rangePercent 2 (-1) 1 ≠ (upperPercent 1 (-1)).sub (lowerPercent 1 2) := by
  have h1 : rangePercent 2 (-1) 1 = JsNum.num 250 := by
    rw [rangePercent_num _ _ _ (by norm_num) (by norm_num)]
    norm_num [abs_of_nonneg, abs_of_nonpos]
  have h2 : (upperPercent 1 (-1)).sub (lowerPercent 1 2) = JsNum.num 150 := by
    rw [upperPercent_num _ _ (by norm_num), lowerPercent_num _ _ (by norm_num), num_sub_num]
    norm_num [abs_of_nonneg, abs_of_nonpos]
  refine ⟨by norm_num, h1, h2, ?_⟩
  rw [h1, h2]
  norm_num

/-- Claim C2 as amended: the percent formulas are as claimed wherever the
divisions are finite, and the subtraction branch is selected exactly when
priceLower > price and priceUpper > 0 both hold; otherwise the percents are
added. -/
theorem claim_C2_amended :
    ∀ l u p : ℚ,
      (u ≠ 0 → upperPercent p u = JsNum.num (100 - p / u * 100))
      ∧ (l ≠ 0 → lowerPercent p l = JsNum.num |100 - p / l * 100|)
      ∧ (p < l ∧ 0 < u → rangePercent l u p = (upperPercent p u).sub (lowerPercent p l))
      ∧ (¬(p < l ∧ 0 < u) → rangePercent l u p = (upperPercent p u).add (lowerPercent p l)) := by
  intro l u p
  refine ⟨upperPercent_num p u, lowerPercent_num p l, fun h => ?_, fun h => ?_⟩
  · rw [rangePercent, if_pos h]
  · rw [rangePercent, if_neg h]

/-- Witness for the amended claim C2, at the spec example inputs where the
addition branch applies. -/
theorem claim_C2_amended_witness :
    upperPercent 1 (12/10) = JsNum.num (100 - 1 / (12/10) * 100)
    ∧ lowerPercent 1 (9/10) = JsNum.num |100 - 1 / (9/10) * 100|
    ∧ rangePercent (9/10) (12/10) 1 = (upperPercent 1 (12/10)).add (lowerPercent 1 (9/10)) :=
  ⟨(claim_C2_amended (9/10) (12/10) 1).1 (by norm_num),
   (claim_C2_amended (9/10) (12/10) 1).2.1 (by norm_num),
   (claim_C2_amended (9/10) (12/10) 1).2.2.2 (by norm_num)⟩

/-- Claim C3: the band value, hence the score on every defined input
triple, is a finite number in [1, 5], and at every band boundary the band
formula agrees with the value approached by the previous band. -/
theorem claim_C3 :
    (∀ r : JsNum, ∃ q : ℚ, riskBand r = JsNum.num q ∧ 1 ≤ q ∧ q ≤ 5)
    ∧ (∀ l u p : ℚ, ∃ q : ℚ,
        riskScore (some l) (some u) (some p) = some (JsNum.num q) ∧ 1 ≤ q ∧ q ≤ 5)
    ∧ riskBand (JsNum.num (15/2)) = JsNum.num 5
    ∧ riskBand (JsNum.num 15) = JsNum.num 4
    ∧ riskBand (JsNum.num 30) = JsNum.num 3
    ∧ riskBand (JsNum.num 60) = JsNum.num 2
    ∧ riskBand (JsNum.num 120) = JsNum.num 1 := by
  refine ⟨riskBand_mem, fun l u p => ?_, ?_, ?_, ?_, ?_, ?_⟩
  · obtain ⟨q, hq, h1, h5⟩ := riskBand_mem (rangePercent l u p)
    exact ⟨q, by rw [show riskScore (some l) (some u) (some p)
      = some (riskBand (rangePercent l u p)) from rfl, hq], h1, h5⟩
  all_goals (rw [riskBand_num]; norm_num [bandQ])

/-- Claim C4: the band value is monotonically non-increasing in the range
percent. -/
theorem claim_C4 :
    ∀ r1 r2 : ℚ, r1 ≤ r2 →
      (riskBand (JsNum.num r2)).toRat ≤ (riskBand (JsNum.num r1)).toRat := by
  intro r1 r2 h
  rw [riskBand_num, riskBand_num]
  exact bandQ_antitone h

/-- Witness for claim C4 at the pair 10 ≤ 20. -/
theorem claim_C4_witness :
    (riskBand (JsNum.num 20)).toRat ≤ (riskBand (JsNum.num 10)).toRat :=
  claim_C4 10 20 (by norm_num)

/-- Claim C5: a stablecoin pair yields exactly the single Stable preset
with bounds [0.984, 1.016], risk VeryLow and profit High; otherwise exactly
the four presets Full, Safe, Normal, Risk in that order, with bounds
[0, Infinity), [0.8, 1.4], [0.9, 1.2], [0.95, 1.1] and matching tiers. -/
theorem claim_C5 :
    ranges true = [⟨Presets.STABLE, JsNum.num 0.984, JsNum.num 1.016,
      PresetProfits.VERY_LOW, PresetProfits.HIGH⟩]
    ∧ ranges false =
      [⟨Presets.FULL, JsNum.num 0, JsNum.posInf,
        PresetProfits.VERY_LOW, PresetProfits.VERY_LOW⟩,
       ⟨Presets.SAFE, JsNum.num 0.8, JsNum.num 1.4,
        PresetProfits.LOW, PresetProfits.LOW⟩,
       ⟨Presets.NORMAL, JsNum.num 0.9, JsNum.num 1.2,
        PresetProfits.MEDIUM, PresetProfits.MEDIUM⟩,
       ⟨Presets.RISK, JsNum.num 0.95, JsNum.num 1.1,
        PresetProfits.HIGH, PresetProfits.HIGH⟩] :=
  ⟨rfl, rfl⟩

/-- Claim C6: on the score 3.4 the five segment fills are
[100, 100, 100, 40, 0], and for every score in [1, 5] segment i is filled
100 below the integer part of the score, the fractional part times 100 at
the integer part, and 0 above it. -/
theorem claim_C6 :
    fiveSegmentFill (some 3.4) = some [100, 100, 100, 40, 0]
    ∧ ∀ q : ℚ, 1 ≤ q → q ≤ 5 → ∀ i : ℕ, i < 5 →
        (fiveSegmentFill (some q)).map (fun fills => fills.getD i 0)
          = some (if (i : ℤ) < ⌊q⌋ then 100
              else if (i : ℤ) = ⌊q⌋ then (q - ⌊q⌋) * 100 else 0) := by
  constructor
  · show some _ = _
    norm_num [fiveSegmentFill, List.range_succ]
  · intro q h1 h5 i hi
    interval_cases i <;> simp [fiveSegmentFill, List.range_succ]

/-- Witness for claim C6 at score 3.4 and segment index 3: the fill is the
fractional part times 100. -/
theorem claim_C6_witness :
    (fiveSegmentFill (some (3.4 : ℚ))).map (fun fills => fills.getD 3 0)
      = some (if ((3 : ℕ) : ℤ) < ⌊(3.4 : ℚ)⌋ then 100
          else if ((3 : ℕ) : ℤ) = ⌊(3.4 : ℚ)⌋ then ((3.4 : ℚ) - ⌊(3.4 : ℚ)⌋) * 100 else 0) :=
  claim_C6.2 3.4 (by norm_num) (by norm_num) 3 (by norm_num)

/-- Claim C7: the risk memo is undefined when any of the three inputs is
absent, and the segment-fill memo is undefined when the score is absent. -/
theorem claim_C7 :
    (∀ l u p : Option ℚ, l = none ∨ u = none ∨ p = none → riskScore l u p = none)
    ∧ fiveSegmentFill none = none := by
  refine ⟨?_, rfl⟩
  intro l u p h
  rcases h with rfl | rfl | rfl
  · cases u <;> cases p <;> rfl
  · cases l <;> cases p <;> rfl
  · cases l <;> cases u <;> rfl

/-- Witness for claim C7: an absent lower price yields no score. -/
theorem claim_C7_witness : riskScore none (some 1) (some 1) = none :=
  claim_C7.1 none (some 1) (some 1) (Or.inl rfl)

/-- Claim C8: both memos are total: on every complete numeric input,
including priceUpper = 0, the risk memo returns a finite score in [1, 5]
(at priceLower = 0.9, priceUpper = 0, price = 1 the division by zero flows
through the infinity rules and still lands on the score 5), and the
segment-fill memo always returns a five-element list. -/
theorem claim_C8 :
    (∀ l u p : ℚ, ∃ q : ℚ,
        riskScore (some l) (some u) (some p) = some (JsNum.num q) ∧ 1 ≤ q ∧ q ≤ 5)
    ∧ riskScore (some 0.9) (some 0) (some 1) = some (JsNum.num 5)
    ∧ (∀ q : ℚ, ∃ fills : List ℚ, fiveSegmentFill (some q) = some fills ∧ fills.length = 5) := by
  refine ⟨fun l u p => ?_, ?_, fun q =>
    ⟨(List.range 5).map (fun (i : ℕ) => if (i : ℤ) < ⌊q⌋ then 100
        else if (i : ℤ) = ⌊q⌋ then (q - ⌊q⌋) * 100 else 0),
     rfl, by rw [List.length_map, List.length_range]⟩⟩
  · obtain ⟨q, hq, hq1, hq5⟩ := riskBand_mem (rangePercent l u p)
    exact ⟨q, by rw [show riskScore (some l) (some u) (some p)
      = some (riskBand (rangePercent l u p)) from rfl, hq], hq1, hq5⟩
  · show some (riskBand (rangePercent 0.9 0 1)) = _
    rw [rangePercent]
    norm_num [upperPercent, lowerPercent, JsNum.div, JsNum.mul, JsNum.sub, JsNum.neg,
      JsNum.add, JsNum.abs, riskBand, JsNum.lt]

/-- Claim C9: price inversion swaps and reciprocates the bounds, and two
applications restore the original positive bounds; on (0.8, 1.2) one
inversion gives (5/6, 5/4) = (0.8333..., 1.25) and a second gives back
(0.8, 1.2). -/
theorem claim_C9 :
    (∀ l u : ℚ, 0 < l → 0 < u →
      invertBounds l u = (1 / u, 1 / l)
      ∧ invertBounds (invertBounds l u).1 (invertBounds l u).2 = (l, u))
    ∧ invertBounds 0.8 1.2 = (5/6, 5/4)
    ∧ invertBounds (5/6) (5/4) = (0.8, 1.2) := by
  refine ⟨fun l u hl hu => ⟨rfl, ?_⟩, ?_, ?_⟩
  · simp [invertBounds, one_div_one_div]
  · show ((1 : ℚ) / (1.2 : ℚ), (1 : ℚ) / (0.8 : ℚ)) = _
    norm_num
  · show ((1 : ℚ) / (5/4 : ℚ), (1 : ℚ) / (5/6 : ℚ)) = _
    norm_num

/-- Witness for claim C9: double inversion restores (0.8, 1.2). -/
theorem claim_C9_witness :
    invertBounds (invertBounds 0.8 1.2).1 (invertBounds 0.8 1.2).2 = (0.8, 1.2) :=
  (claim_C9.1 0.8 1.2 (by norm_num) (by norm_num)).2

/-- Claim C10: a preset button click first passes the clicked range to the
selection handler unconditionally, then passes null exactly when the
clicked type equals the active preset, and the same range otherwise. -/
theorem claim_C10 :
    ∀ (activePreset : Option Presets) (range : PresetRange),
      presetClickCalls activePreset range
        = [some range, if activePreset = some range.type then none else some range]
      ∧ ((presetClickCalls activePreset range).getLast? = some none
          ↔ activePreset = some range.type) := by
  intro a r
  refine ⟨?_, ?_⟩
  · unfold presetClickCalls
    split_ifs <;> rfl
  · unfold presetClickCalls
    split_ifs with h <;> simp [h]

end QuickSwap
